import Mathlib

/-!
Shallow embedding of `scripts/binance_data_collector(2).py`
(class `BinanceDataCollector`), covering:

* `merge_csv_files`  — concatenation, timestamp coercion/validation,
  sorting, de-duplication, `datetime` derivation, column reordering,
  and the single `to_csv` write;
* `collect`          — orchestration and the placement of `cleanup()`;
* `download_and_extract` — the bounded retry loop with its 404 fast path;
* `generate_urls_by_pattern` / `get_zip_links` — the month-range URL
  generator used as fallback when the S3 listing query raises.

Numeric cell values are modelled as rationals: `pd.to_numeric` produces
floats, and every value relevant to the claims (epoch milliseconds, and
the one fractional counterexample 1230768000000.5) is exactly
representable in both float64 and `ℚ`.
-/

/-- A raw `open_time` cell as read by `pd.read_csv`: either a numeric
value or content that `pd.to_numeric(..., errors='coerce')` turns into
`NaN` (modelled as `Cell.invalid`). -/
inductive Cell where
  | numeric (q : ℚ)
  | invalid
deriving DecidableEq

/-- The eleven non-key columns of a Binance kline row, in the positional
order fixed by the `columns` list of `merge_csv_files`
(`open, high, low, close, volume, close_time, quote_volume, trades,
taker_buy_base, taker_buy_quote, ignore`). -/
structure RowData where
  open_ : ℚ
  high : ℚ
  low : ℚ
  close : ℚ
  volume : ℚ
  close_time : ℚ
  quote_volume : ℚ
  trades : ℚ
  taker_buy_base : ℚ
  taker_buy_quote : ℚ
  ignore : ℚ
deriving DecidableEq

/-- A row as read from one CSV file, before `pd.to_numeric` is applied
to `open_time`. -/
structure RawRow where
  open_time : Cell
  data : RowData
deriving DecidableEq

/-- A row after `open_time` has been coerced to a number and has passed
the validity filter. -/
structure NumRow where
  open_time : ℚ
  data : RowData
deriving DecidableEq

/-- `pd.to_numeric(x, errors='coerce')` on one cell: numeric content is
kept, anything else becomes `NaN` (`none`). -/
def to_numeric : Cell → Option ℚ
  | Cell.numeric q => some q
  | Cell.invalid => none

/-- `min_timestamp = 1230768000000` (2009-01-01) from `merge_csv_files`. -/
def min_timestamp : ℚ := 1230768000000

/-- `max_timestamp = int((datetime.now() + timedelta(days=365)).timestamp() * 1000)`:
the current time plus 365 days, in epoch milliseconds.  `nowMs` is the
current time in integer epoch milliseconds; 365 days are
365 * 86400000 ms. -/
def max_timestamp (nowMs : Int) : ℚ := ((nowMs + 365 * 86400000 : Int) : ℚ)

/-- The coercion plus validity-filter stage of `merge_csv_files`:
`merged_df['open_time'] = pd.to_numeric(..., errors='coerce')` followed by
`valid_mask = notna & (open_time >= min_timestamp) & (open_time <= max_timestamp)`
and `merged_df = merged_df[valid_mask]`.  Rows whose coercion failed
(`NaN`) or whose value is out of range are dropped. -/
def validRows (l : List RawRow) (nowMs : Int) : List NumRow :=
  l.filterMap (fun r =>
    match to_numeric r.open_time with
    | some q =>
        if min_timestamp ≤ q ∧ q ≤ max_timestamp nowMs then
          some ⟨q, r.data⟩
        else none
    | none => none)

/-- Comparison used by `merged_df.sort_values('open_time')`. -/
def numRowLE (a b : NumRow) : Prop := a.open_time ≤ b.open_time

instance : DecidableRel numRowLE := fun a b =>
  inferInstanceAs (Decidable (a.open_time ≤ b.open_time))

instance : IsTotal NumRow numRowLE := ⟨fun a b => le_total a.open_time b.open_time⟩

instance : IsTrans NumRow numRowLE := ⟨fun _ _ _ h h' => le_trans h h'⟩

/-- `merged_df.sort_values('open_time')`: ascending sort on the
`open_time` column, modelled as a stable sort (insertion sort).  Row
order among equal keys is preserved, matching the first-seen-wins
behaviour the de-duplication step relies on. -/
def sortRows (l : List NumRow) : List NumRow := List.insertionSort numRowLE l

/-- Helper for `drop_duplicates(subset='open_time', keep='first')`:
walks the list keeping the first row carrying each `open_time` value;
`seen` is the set of keys already emitted. -/
def dedupRows (seen : List ℚ) : List NumRow → List NumRow
  | [] => []
  | r :: rs =>
      if r.open_time ∈ seen then dedupRows seen rs
      else r :: dedupRows (r.open_time :: seen) rs

/-- `merged_df.drop_duplicates(subset='open_time', keep='first')`. -/
def drop_duplicates (l : List NumRow) : List NumRow := dedupRows [] l

/-- A UTC calendar timestamp, the meaning of one entry of
`pd.to_datetime(..., unit='ms', utc=True)`. -/
structure UTCTimestamp where
  year : Int
  month : Int
  day : Int
  hour : Int
  minute : Int
  second : Int
  nanosecond : Int
deriving DecidableEq

/-- Civil-from-days: converts a count of days since 1970-01-01 to a
proleptic-Gregorian (year, month, day) triple (the standard
days-to-civil algorithm used by datetime libraries). -/
def civil_from_days (z0 : Int) : Int × Int × Int :=
  let z := z0 + 719468
  let era := z.fdiv 146097
  let doe := z - era * 146097
  let yoe := (doe - doe.ediv 1460 + doe.ediv 36524 - doe.ediv 146096).ediv 365
  let y := yoe + era * 400
  let doy := doe - (365 * yoe + yoe.ediv 4 - yoe.ediv 100)
  let mp := (5 * doy + 2).ediv 153
  let d := doy - (153 * mp + 2).ediv 5 + 1
  let m := mp + (if mp < 10 then 3 else -9)
  (y + (if m ≤ 2 then 1 else 0), m, d)

/-- `pd.to_datetime(ms, unit='ms', utc=True)` for one value: the epoch
milliseconds are scaled to nanoseconds and decomposed into a UTC
calendar timestamp.  The nanosecond count is the floor of `ms * 10^6`,
computed here on the rational's numerator and denominator
(`num * 10^6` floor-divided by `den`, which equals that floor since
`den > 0`) so the definition evaluates by kernel reduction. -/
def epoch_ms_to_utc (ms : ℚ) : UTCTimestamp :=
  let ns : Int := (ms.num * 1000000).fdiv (ms.den : Int)
  let nsPerDay : Int := 86400000000000
  let days := ns.fdiv nsPerDay
  let nsod := ns - days * nsPerDay
  let c := civil_from_days days
  { year := c.1, month := c.2.1, day := c.2.2
    hour := nsod.ediv 3600000000000
    minute := (nsod.ediv 60000000000).emod 60
    second := (nsod.ediv 1000000000).emod 60
    nanosecond := nsod.emod 1000000000 }

/-- A row of the final merged dataset: the derived `datetime` column,
`open_time`, and the remaining original columns. -/
structure MergedRow where
  datetime : UTCTimestamp
  open_time : ℚ
  data : RowData
deriving DecidableEq

/-- `merged_df['datetime'] = pd.to_datetime(merged_df['open_time'], unit='ms', utc=True)`:
derives the `datetime` column from each row's own `open_time`. -/
def addDatetime (l : List NumRow) : List MergedRow :=
  l.map (fun r => ⟨epoch_ms_to_utc r.open_time, r.open_time, r.data⟩)

/-- The `columns` list fixed in `merge_csv_files` (the schema the CSVs
are read with). -/
def kline_columns : List String :=
  ["open_time", "open", "high", "low", "close", "volume",
   "close_time", "quote_volume", "trades", "taker_buy_base",
   "taker_buy_quote", "ignore"]

/-- The column reordering
`cols = ['datetime', 'open_time'] + [col for col in merged_df.columns if col not in ['datetime', 'open_time']]`.
At that point `merged_df.columns` is `kline_columns` with `datetime`
appended (column assignment appends at the end). -/
def output_columns : List String :=
  ["datetime", "open_time"] ++
    (kline_columns ++ ["datetime"]).filter
      (fun c => !(c == "datetime" || c == "open_time"))

/-- Result of `merge_csv_files`: the returned dataframe (`none` when the
function returns `None`) and the number of `to_csv` calls executed
(0 on the early return, 1 on the path that saves the output file). -/
structure MergeResult where
  result : Option (List MergedRow)
  writes : Nat
deriving DecidableEq

/-- `merge_csv_files(csv_files, output_filename)`.  The input is the
list of per-file read outcomes: `some rows` when `pd.read_csv`
succeeded, `none` when it raised (that file is skipped with a warning).
If no file parsed (`if not dfs`), the function returns `None` without
writing; otherwise it concatenates, coerces/validates `open_time`,
sorts, de-duplicates, derives `datetime`, writes the output once, and
returns the dataset. -/
def merge_csv_files (csvs : List (Option (List RawRow))) (nowMs : Int) :
    MergeResult :=
  let dfs := csvs.filterMap id
  if dfs = [] then ⟨none, 0⟩
  else
    ⟨some (addDatetime (drop_duplicates (sortRows (validRows dfs.flatten nowMs)))), 1⟩

/-- One monthly archive URL.  The full URL string (see `urlString`) is
determined by the fixed S3 base plus these four fields, so the structure
carries exactly the information content of the Python URL string. -/
structure ArchiveURL where
  symbol : String
  interval : String
  year : Int
  month : Int
deriving DecidableEq

/-- `self.s3_base` from `__init__`. -/
def s3_base : String := "https://s3-ap-northeast-1.amazonaws.com/data.binance.vision"

/-- `str(month).zfill(2)`: the month rendered with a leading zero when it
has a single digit. -/
def zfill2 (n : Int) : String :=
  if 0 ≤ n ∧ n < 10 then "0" ++ toString n else toString n

/-- The URL string built in `generate_urls_by_pattern` from the base,
the kline path, and the SYMBOL-INTERVAL-YEAR-MONTH.zip filename. -/
def urlString (u : ArchiveURL) : String :=
  s3_base ++ "/data/spot/monthly/klines/" ++ u.symbol ++ "/" ++ u.interval ++ "/" ++
    u.symbol ++ "-" ++ u.interval ++ "-" ++ toString u.year ++ "-" ++
    zfill2 u.month ++ ".zip"

/-- `start_year = 2017 if self.symbol == 'BTCUSDT' else 2018` from
`generate_urls_by_pattern`. -/
def start_year (symbol : String) : Int :=
  if symbol = "BTCUSDT" then 2017 else 2018

/-- A calendar date, modelling the `datetime` values compared in the
generator's loop.  `datetime.now()` also carries a time of day, but the
loop only ever compares it against first-of-month midnights, so the
(year, month, day) triple determines every comparison made. -/
structure Date where
  y : Int
  m : Int
  d : Int
deriving DecidableEq

/-- `datetime(a.y, a.m, a.d) <= datetime(b.y, b.m, b.d)` (lexicographic;
the left-hand side is always a midnight in the source, so time of day
never breaks a tie). -/
def dateLE (a b : Date) : Prop :=
  a.y < b.y ∨ (a.y = b.y ∧ (a.m < b.m ∨ (a.m = b.m ∧ a.d ≤ b.d)))

instance (a b : Date) : Decidable (dateLE a b) := by
  unfold dateLE; infer_instance

/-- Zero-based index of a month on the time line: January of year 0 is
index -1 + 1... concretely `monthIdx y m = 12 * y + m - 1`, so
consecutive calendar months have consecutive indices. -/
def monthIdx (y m : Int) : Int := 12 * y + m - 1

/-- Inverse of `monthIdx`: the (year, month) pair of a month index. -/
def ofMonthIdx (k : Int) : Int × Int := (k / 12, k % 12 + 1)

/-- The `while current <= end_date` loop of `generate_urls_by_pattern`:
starting from `(y, m)`, emit one (year, month) pair per iteration and
step to the next month (`year + 1, 1` after December).  The loop is
modelled with a fuel argument; `genMonths_eq` shows the fuel chosen by
`generate_urls_by_pattern` is large enough that the fuel never runs out
before the loop condition fails. -/
def genMonths (endd : Date) : Nat → Int → Int → List (Int × Int)
  | 0, _, _ => []
  | fuel + 1, y, m =>
      if dateLE ⟨y, m, 1⟩ endd then
        (y, m) ::
          (if m = 12 then genMonths endd fuel (y + 1) 1
           else genMonths endd fuel y (m + 1))
      else []

/-- `generate_urls_by_pattern`: enumerates every month from January of
the symbol's start year through `datetime.now()` and renders each as an
archive URL. -/
def generate_urls_by_pattern (symbol interval : String) (now : Date) :
    List ArchiveURL :=
  let sy := start_year symbol
  (genMonths now ((now.y - sy + 2) * 12).toNat sy 1).map
    (fun p => ⟨symbol, interval, p.1, p.2⟩)

/-- Outcome of the S3 listing request plus XML parse in `get_zip_links`:
either the list of extracted `.zip` links, or `failed` when any step of
the `try` block raised. -/
inductive ListingOutcome where
  | ok (links : List ArchiveURL)
  | failed
deriving DecidableEq

/-- Comparison used by `sorted(zip_links)`: lexicographic order of the
URL strings. -/
def urlStringLE (a b : ArchiveURL) : Prop := urlString a ≤ urlString b

instance : DecidableRel urlStringLE := fun a b =>
  inferInstanceAs (Decidable (urlString a ≤ urlString b))

/-- `get_zip_links`: on a successful listing, return `sorted(zip_links)`;
on any exception, fall back to `generate_urls_by_pattern`. -/
def get_zip_links (res : ListingOutcome) (symbol interval : String)
    (now : Date) : List ArchiveURL :=
  match res with
  | ListingOutcome.ok links => List.insertionSort urlStringLE links
  | ListingOutcome.failed => generate_urls_by_pattern symbol interval now

/-- Result of `collect`: the returned dataframe, the number of output
files written, and whether `self.cleanup()` (removal of the scratch
directory `temp_SYMBOL`) was executed before returning. -/
structure CollectResult where
  result : Option (List MergedRow)
  writes : Nat
  cleanupCalled : Bool
deriving DecidableEq

/-- `collect(output_filename)`.  `zip_links` is what `get_zip_links`
returned; `fetch url` is the combined outcome of
`download_and_extract(url)` followed by the later `pd.read_csv` of the
extracted file: `none` when the download returned `None`, and
`some parsed` when it produced a CSV path that later reads as `parsed`.
The scratch directory exists on entry (created by `__init__`);
`cleanupCalled` records whether `self.cleanup()` ran on the taken path.
The source calls `cleanup()` only after `merge_csv_files`; both early
returns (`if not zip_links` and `if not csv_files`) skip it. -/
def collect (zip_links : List ArchiveURL)
    (fetch : ArchiveURL → Option (Option (List RawRow))) (nowMs : Int) :
    CollectResult :=
  if zip_links = [] then ⟨none, 0, false⟩
  else
    let csv_files := zip_links.filterMap fetch
    if csv_files = [] then ⟨none, 0, false⟩
    else
      let m := merge_csv_files csv_files nowMs
      ⟨m.result, m.writes, true⟩

/-- What one iteration of the retry loop in `download_and_extract`
observes: a 404 response, a response that makes `raise_for_status`
raise `HTTPError` with the given status code, any other exception
(timeout, connection error, bad zip), or a successful response whose
archive contains a CSV member (`some name`) or none. -/
inductive AttemptOutcome where
  | notFound
  | httpError (code : Nat)
  | otherError
  | ok (csv : Option String)
deriving DecidableEq

/-- Result of `download_and_extract`: the returned CSV path (if any),
the number of network attempts actually made, and the total seconds
spent in the fixed `time.sleep(2)` inter-attempt delays. -/
structure FetchResult where
  result : Option String
  attempts : Nat
  sleepSeconds : Nat
deriving DecidableEq

/-- The fixed inter-attempt delay `time.sleep(2)` of the retry loop. -/
def retry_delay : Nat := 2

/-- The `for attempt in range(retries)` loop of `download_and_extract`,
consuming the list of per-attempt outcomes (`rest.isEmpty` holds exactly
on the final attempt, i.e. when `attempt == retries - 1` fails the
`attempt < retries - 1` guard).  A 404 returns `None` at once; a found
CSV (or a response with no CSV member) also ends the loop at once; other
failures sleep `retry_delay` seconds and retry, and the final failed
attempt returns `None` instead of propagating the exception. -/
def downloadLoop : List AttemptOutcome → FetchResult
  | [] => ⟨none, 0, 0⟩
  | o :: rest =>
      match o with
      | AttemptOutcome.notFound => ⟨none, 1, 0⟩
      | AttemptOutcome.ok csv => ⟨csv, 1, 0⟩
      | AttemptOutcome.httpError code =>
          if code = 404 then ⟨none, 1, 0⟩
          else if rest.isEmpty then ⟨none, 1, 0⟩
          else
            let r := downloadLoop rest
            ⟨r.result, r.attempts + 1, r.sleepSeconds + retry_delay⟩
      | AttemptOutcome.otherError =>
          if rest.isEmpty then ⟨none, 1, 0⟩
          else
            let r := downloadLoop rest
            ⟨r.result, r.attempts + 1, r.sleepSeconds + retry_delay⟩

/-- `download_and_extract(url, retries=3)`: runs the retry loop with
`retries` attempts, attempt `i` observing `outcomes i`. -/
def download_and_extract (outcomes : Nat → AttemptOutcome)
    (retries : Nat := 3) : FetchResult :=
  downloadLoop ((List.range retries).map outcomes)

/-- The failures for which the loop consumes a retry: an `HTTPError`
whose status is not 404, or any other exception. -/
def retryableFailure : AttemptOutcome → Prop
  | AttemptOutcome.httpError code => code ≠ 404
  | AttemptOutcome.otherError => True
  | _ => False

/-- Concrete non-key field values used by witnesses and
counterexamples. -/
def zeroData : RowData := ⟨0, 0, 0, 0, 0, 0, 0, 0, 0, 0, 0⟩

/-- A second, distinct set of non-key field values. -/
def oneData : RowData := ⟨1, 1, 1, 1, 1, 1, 1, 1, 1, 1, 1⟩

/-- The rational 1230768000000.5 (= 2461536000001/2): one half
millisecond above the minimum accepted timestamp, exactly representable
as a float64 and hence a possible `pd.to_numeric` output. -/
def fractionalMs : ℚ := Rat.mk' 2461536000001 2

/-- C8: merging an empty list of input batches returns `None` and writes
no output file. -/
theorem merge_empty_returns_absent (nowMs : Int) :
    merge_csv_files [] nowMs = ⟨none, 0⟩ := rfl

/-- De-duplication removes rows but never reorders or invents them. -/
theorem dedupRows_sublist : ∀ (l : List NumRow) (seen : List ℚ),
    List.Sublist (dedupRows seen l) l
  | [], _ => by simp [dedupRows]
  | r :: rs, seen => by
      simp only [dedupRows]
      by_cases h : r.open_time ∈ seen
      · rw [if_pos h]; exact (dedupRows_sublist rs seen).cons r
      · rw [if_neg h]; exact (dedupRows_sublist rs _).cons₂ r

/-- After de-duplication the `open_time` keys are pairwise distinct and
avoid every key already seen. -/
theorem dedupRows_keys_nodup : ∀ (l : List NumRow) (seen : List ℚ),
    ((dedupRows seen l).map NumRow.open_time).Nodup ∧
      ∀ q ∈ (dedupRows seen l).map NumRow.open_time, q ∉ seen
  | [], seen => by simp [dedupRows]
  | r :: rs, seen => by
      simp only [dedupRows]
      by_cases h : r.open_time ∈ seen
      · rw [if_pos h]; exact dedupRows_keys_nodup rs seen
      · rw [if_neg h]
        obtain ⟨ih1, ih2⟩ := dedupRows_keys_nodup rs (r.open_time :: seen)
        refine ⟨List.nodup_cons.mpr ⟨fun hc => ?_, ih1⟩, ?_⟩
        · exact (ih2 _ hc) (List.mem_cons_self _ _)
        · intro q hq
          rcases List.mem_cons.mp hq with hq | hq
          · exact hq ▸ h
          · exact fun hs => (ih2 q hq) (List.mem_cons_of_mem _ hs)

/-- A key not yet seen survives de-duplication iff it occurs in the
input. -/
theorem dedupRows_keys_mem : ∀ (l : List NumRow) (seen : List ℚ) (q : ℚ),
    q ∉ seen →
    (q ∈ (dedupRows seen l).map NumRow.open_time ↔
      q ∈ l.map NumRow.open_time)
  | [], _, _, _ => Iff.rfl
  | r :: rs, seen, q, hq => by
      simp only [dedupRows]
      by_cases h : r.open_time ∈ seen
      · rw [if_pos h]
        rw [dedupRows_keys_mem rs seen q hq]
        simp only [List.map_cons, List.mem_cons]
        constructor
        · exact Or.inr
        · rintro (rfl | hm)
          · exact absurd h hq
          · exact hm
      · rw [if_neg h]
        simp only [List.map_cons, List.mem_cons]
        by_cases hqr : q = r.open_time
        · subst hqr; simp
        · have : q ∉ r.open_time :: seen := by
            intro hc
            rcases List.mem_cons.mp hc with hc | hc
            · exact hqr hc
            · exact hq hc
          rw [dedupRows_keys_mem rs _ q this]

/-- A `≤`-sorted list of rationals without duplicates is `<`-sorted. -/
theorem sorted_lt_of_sorted_le_nodup {l : List ℚ}
    (hs : List.Sorted (· ≤ ·) l) (hn : l.Nodup) :
    List.Sorted (· < ·) l :=
  (hs.and hn).imp (fun h => lt_of_le_of_ne h.1 h.2)

/-- `addDatetime` leaves the `open_time` column unchanged. -/
theorem addDatetime_keys (l : List NumRow) :
    (addDatetime l).map MergedRow.open_time = l.map NumRow.open_time := by
  induction l with
  | nil => rfl
  | cons r rs ih => simp [addDatetime] at ih ⊢

/-- Every row surviving the validity filter carries an `open_time`
within the accepted epoch range. -/
theorem validRows_bounds (l : List RawRow) (nowMs : Int) :
    ∀ x ∈ validRows l nowMs,
      min_timestamp ≤ x.open_time ∧ x.open_time ≤ max_timestamp nowMs := by
  intro x hx
  simp only [validRows, List.mem_filterMap] at hx
  obtain ⟨r, -, hr⟩ := hx
  cases hc : to_numeric r.open_time with
  | none => rw [hc] at hr; exact Option.noConfusion hr
  | some q =>
      rw [hc] at hr
      by_cases hq : min_timestamp ≤ q ∧ q ≤ max_timestamp nowMs
      · simp only [hq, if_true] at hr
        cases hr
        exact hq
      · simp only [hq, if_false] at hr
        exact Option.noConfusion hr

/-- Inversion for the successful branch of `merge_csv_files`. -/
theorem merge_some_eq {csvs : List (Option (List RawRow))} {nowMs : Int}
    {ds : List MergedRow}
    (h : (merge_csv_files csvs nowMs).result = some ds) :
    ds = addDatetime (drop_duplicates (sortRows
      (validRows (csvs.filterMap id).flatten nowMs))) := by
  by_cases hd : csvs.filterMap id = []
  · have hm : merge_csv_files csvs nowMs = ⟨none, 0⟩ := by
      unfold merge_csv_files; simp [hd]
    rw [hm] at h
    exact absurd h (by simp)
  · have hm : merge_csv_files csvs nowMs =
        ⟨some (addDatetime (drop_duplicates (sortRows
          (validRows (csvs.filterMap id).flatten nowMs)))), 1⟩ := by
      unfold merge_csv_files; simp [hd]
    rw [hm] at h
    exact (Option.some.inj h).symm

/-- C3: a row passes the validity filter of `merge_csv_files` iff its
`open_time` coerced to a number and the value lies in the inclusive
range from 1230768000000 to now + 365 days in epoch milliseconds; the
filter acts row by row, a row with `open_time` 1230767999999 is dropped
and a row with `open_time` 1230768000000 is retained. -/
theorem merge_validity_filter (nowMs : Int) (r : RawRow) (d : RowData)
    (l : List RawRow) (hmax : min_timestamp ≤ max_timestamp nowMs) :
    (validRows [r] nowMs ≠ [] ↔
      ∃ q, to_numeric r.open_time = some q ∧
        min_timestamp ≤ q ∧ q ≤ max_timestamp nowMs) ∧
    validRows (r :: l) nowMs = validRows [r] nowMs ++ validRows l nowMs ∧
    validRows [⟨Cell.numeric 1230767999999, d⟩] nowMs = [] ∧
    validRows [⟨Cell.numeric 1230768000000, d⟩] nowMs =
      [⟨1230768000000, d⟩] := by
  refine ⟨?_, ?_, ?_, ?_⟩
  · cases hc : to_numeric r.open_time with
    | none => simp [validRows, hc]
    | some q =>
        by_cases hq : min_timestamp ≤ q ∧ q ≤ max_timestamp nowMs
        · simp [validRows, hc, hq]
        · simp only [validRows, List.filterMap_cons, hc, if_neg hq,
            List.filterMap_nil, ne_eq, not_true_eq_false, false_iff,
            not_exists]
          rintro q' ⟨hq', hb⟩
          exact hq (Option.some.inj hq' ▸ hb)
  · unfold validRows
    rw [show r :: l = [r] ++ l from rfl, List.filterMap_append]
  · have h1 : ¬(min_timestamp ≤ (1230767999999 : ℚ) ∧
        (1230767999999 : ℚ) ≤ max_timestamp nowMs) := by
      rintro ⟨hb, -⟩
      norm_num [min_timestamp] at hb
    simp [validRows, to_numeric, h1]
  · have h2 : min_timestamp ≤ (1230768000000 : ℚ) ∧
        (1230768000000 : ℚ) ≤ max_timestamp nowMs := by
      refine ⟨by norm_num [min_timestamp], ?_⟩
      simpa [min_timestamp] using hmax
    simp [validRows, to_numeric, h2]

/-- Witness for `merge_validity_filter` at a concrete run time
(2025-10-12 in epoch milliseconds) and a concrete invalid-cell row. -/
theorem merge_validity_filter_witness :
    min_timestamp ≤ max_timestamp 1760227200000 ∧
    ((validRows [⟨Cell.invalid, zeroData⟩] 1760227200000 ≠ [] ↔
      ∃ q, to_numeric (RawRow.mk Cell.invalid zeroData).open_time = some q ∧
        min_timestamp ≤ q ∧ q ≤ max_timestamp 1760227200000) ∧
    validRows [⟨Cell.invalid, zeroData⟩, ⟨Cell.numeric 1230768000000, oneData⟩]
        1760227200000 =
      validRows [⟨Cell.invalid, zeroData⟩] 1760227200000 ++
        validRows [⟨Cell.numeric 1230768000000, oneData⟩] 1760227200000 ∧
    validRows [⟨Cell.numeric 1230767999999, zeroData⟩] 1760227200000 = [] ∧
    validRows [⟨Cell.numeric 1230768000000, zeroData⟩] 1760227200000 =
      [⟨1230768000000, zeroData⟩]) :=
  ⟨by norm_num [min_timestamp, max_timestamp],
    merge_validity_filter 1760227200000 ⟨Cell.invalid, zeroData⟩ zeroData
      [⟨Cell.numeric 1230768000000, oneData⟩]
      (by norm_num [min_timestamp, max_timestamp])⟩

/-- C4: every merged dataset is strictly ascending in `open_time`, and
each `open_time` value that survives the validity filter in any input
batch occurs exactly once in the output, however many batches duplicate
it. -/
theorem merge_sorted_unique (csvs : List (Option (List RawRow)))
    (nowMs : Int) (ds : List MergedRow)
    (h : (merge_csv_files csvs nowMs).result = some ds) :
    List.Sorted (· < ·) (ds.map MergedRow.open_time) ∧
    ∀ q : ℚ,
      (ds.map MergedRow.open_time).count q =
        if q ∈ (validRows (csvs.filterMap id).flatten nowMs).map
            NumRow.open_time
        then 1 else 0 := by
  have hds := merge_some_eq h
  subst hds
  unfold drop_duplicates
  rw [addDatetime_keys]
  have hnodup := (dedupRows_keys_nodup
    (sortRows (validRows (csvs.filterMap id).flatten nowMs)) []).1
  have hsorted_le :
      List.Sorted (· ≤ ·)
        ((sortRows (validRows (csvs.filterMap id).flatten nowMs)).map
          NumRow.open_time) :=
    (List.sorted_insertionSort numRowLE _).map NumRow.open_time
      (fun _ _ hab => hab)
  have hsub := (dedupRows_sublist
    (sortRows (validRows (csvs.filterMap id).flatten nowMs)) []).map
    NumRow.open_time
  have hsorted_le' := hsorted_le.sublist hsub
  have hperm : ((sortRows (validRows (csvs.filterMap id).flatten nowMs)).map
      NumRow.open_time).Perm
      ((validRows (csvs.filterMap id).flatten nowMs).map NumRow.open_time) :=
    (List.perm_insertionSort numRowLE _).map NumRow.open_time
  refine ⟨sorted_lt_of_sorted_le_nodup hsorted_le' hnodup, fun q => ?_⟩
  by_cases hq : q ∈ (validRows (csvs.filterMap id).flatten nowMs).map
      NumRow.open_time
  · rw [if_pos hq]
    refine List.count_eq_one_of_mem hnodup ?_
    rw [dedupRows_keys_mem _ [] q (by simp)]
    exact hperm.mem_iff.mpr hq
  · rw [if_neg hq]
    refine List.count_eq_zero_of_not_mem (fun hmem => hq ?_)
    exact hperm.mem_iff.mp ((dedupRows_keys_mem _ [] q (by simp)).mp hmem)

/-- Witness for `merge_sorted_unique`: two batches duplicating one valid
timestamp merge to a one-row dataset. -/
theorem merge_sorted_unique_witness :
    (merge_csv_files
        [some [⟨Cell.numeric 1230768000000, zeroData⟩],
         some [⟨Cell.numeric 1230768000000, oneData⟩]]
        1760227200000).result =
      some [⟨epoch_ms_to_utc 1230768000000, 1230768000000, zeroData⟩] ∧
    (List.Sorted (· < ·)
      (([⟨epoch_ms_to_utc 1230768000000, 1230768000000, zeroData⟩] :
        List MergedRow).map MergedRow.open_time) ∧
    ∀ q : ℚ,
      (([⟨epoch_ms_to_utc 1230768000000, 1230768000000, zeroData⟩] :
          List MergedRow).map MergedRow.open_time).count q =
        if q ∈ (validRows
            (([some [⟨Cell.numeric 1230768000000, zeroData⟩],
               some [⟨Cell.numeric 1230768000000, oneData⟩]] :
              List (Option (List RawRow))).filterMap id).flatten
            1760227200000).map NumRow.open_time
        then 1 else 0) :=
  ⟨rfl, merge_sorted_unique _ 1760227200000 _ rfl⟩

/-- C5: in every merged dataset the derived `datetime` equals the UTC
conversion of that row's own `open_time`, and the output column order is
`datetime`, `open_time`, then the remaining original columns in their
original relative order. -/
theorem merge_datetime_and_columns (csvs : List (Option (List RawRow)))
    (nowMs : Int) (ds : List MergedRow)
    (h : (merge_csv_files csvs nowMs).result = some ds) :
    (∀ r ∈ ds, r.datetime = epoch_ms_to_utc r.open_time) ∧
    output_columns =
      ["datetime", "open_time", "open", "high", "low", "close", "volume",
       "close_time", "quote_volume", "trades", "taker_buy_base",
       "taker_buy_quote", "ignore"] := by
  refine ⟨?_, rfl⟩
  have hds := merge_some_eq h
  subst hds
  intro r hr
  simp only [addDatetime, List.mem_map] at hr
  obtain ⟨x, -, rfl⟩ := hr
  rfl

/-- Witness for `merge_datetime_and_columns` on a one-row batch. -/
theorem merge_datetime_and_columns_witness :
    (merge_csv_files [some [⟨Cell.numeric 1240000000000, oneData⟩]]
        1760227200000).result =
      some [⟨epoch_ms_to_utc 1240000000000, 1240000000000, oneData⟩] ∧
    ((∀ r ∈ ([⟨epoch_ms_to_utc 1240000000000, 1240000000000, oneData⟩] :
        List MergedRow), r.datetime = epoch_ms_to_utc r.open_time) ∧
    output_columns =
      ["datetime", "open_time", "open", "high", "low", "close", "volume",
       "close_time", "quote_volume", "trades", "taker_buy_base",
       "taker_buy_quote", "ignore"]) :=
  ⟨rfl, merge_datetime_and_columns
    [some [⟨Cell.numeric 1240000000000, oneData⟩]] 1760227200000 _ rfl⟩

/-- C9 counterexample: the validity filter checks only numeric coercion
and range, not integrality.  A batch whose `open_time` cell holds the
fractional value 1230768000000.5 (= 2461536000001/2, exactly
representable as a float64) passes the filter, and the merged dataset's
single row has a non-integer `open_time` (denominator 2). -/
theorem merge_integer_counterexample :
    (merge_csv_files
        [some [⟨Cell.numeric fractionalMs, zeroData⟩]]
        1760227200000).result =
      some [⟨epoch_ms_to_utc fractionalMs, fractionalMs, zeroData⟩] ∧
    fractionalMs.den ≠ 1 :=
  ⟨rfl, by decide⟩

/-- C9 amended: every retained row's `open_time` is a numeric value
(coercion succeeded) within the accepted epoch range; integrality is not
enforced. -/
theorem merge_open_time_in_range (csvs : List (Option (List RawRow)))
    (nowMs : Int) (ds : List MergedRow)
    (h : (merge_csv_files csvs nowMs).result = some ds) :
    ∀ r ∈ ds, min_timestamp ≤ r.open_time ∧
      r.open_time ≤ max_timestamp nowMs := by
  have hds := merge_some_eq h
  subst hds
  intro r hr
  simp only [addDatetime, List.mem_map] at hr
  obtain ⟨x, hx, rfl⟩ := hr
  have hx2 : x ∈ sortRows (validRows (csvs.filterMap id).flatten nowMs) :=
    (dedupRows_sublist _ []).subset hx
  have hx3 : x ∈ validRows (csvs.filterMap id).flatten nowMs :=
    (List.perm_insertionSort numRowLE _).subset hx2
  exact validRows_bounds _ _ x hx3

/-- Witness for `merge_open_time_in_range` on a one-row batch. -/
theorem merge_open_time_in_range_witness :
    (merge_csv_files [some [⟨Cell.numeric 1230768000000, zeroData⟩]]
        1760227200001).result =
      some [⟨epoch_ms_to_utc 1230768000000, 1230768000000, zeroData⟩] ∧
    ∀ r ∈ ([⟨epoch_ms_to_utc 1230768000000, 1230768000000, zeroData⟩] :
        List MergedRow),
      min_timestamp ≤ r.open_time ∧
        r.open_time ≤ max_timestamp 1760227200001 :=
  ⟨rfl, merge_open_time_in_range
    [some [⟨Cell.numeric 1230768000000, zeroData⟩]] 1760227200001 _ rfl⟩

/-- C10: when at least one batch parses but every row fails the
timestamp filter, `merge_csv_files` still writes the output file (header
only, zero data rows) and returns the empty dataset; it returns `None`
exactly when no batch parsed (empty input list or all reads failed). -/
theorem merge_all_filtered_writes_empty (csvs : List (Option (List RawRow)))
    (nowMs : Int) (hparse : csvs.filterMap id ≠ [])
    (hfilter : validRows (csvs.filterMap id).flatten nowMs = []) :
    (merge_csv_files csvs nowMs).result = some [] ∧
    (merge_csv_files csvs nowMs).writes = 1 ∧
    ∀ csvs2 : List (Option (List RawRow)),
      ((merge_csv_files csvs2 nowMs).result = none ↔
        csvs2.filterMap id = []) := by
  have hm : merge_csv_files csvs nowMs =
      ⟨some (addDatetime (drop_duplicates (sortRows
        (validRows (csvs.filterMap id).flatten nowMs)))), 1⟩ := by
    unfold merge_csv_files; simp [hparse]
  rw [hm, hfilter]
  refine ⟨rfl, rfl, fun csvs2 => ?_⟩
  by_cases hd : csvs2.filterMap id = []
  · have : merge_csv_files csvs2 nowMs = ⟨none, 0⟩ := by
      unfold merge_csv_files; simp [hd]
    simp [this, hd]
  · have : merge_csv_files csvs2 nowMs =
        ⟨some (addDatetime (drop_duplicates (sortRows
          (validRows (csvs2.filterMap id).flatten nowMs)))), 1⟩ := by
      unfold merge_csv_files; simp [hd]
    simp [this, hd]

/-- Witness for `merge_all_filtered_writes_empty`: one parseable batch
whose only row is below the minimum timestamp. -/
theorem merge_all_filtered_writes_empty_witness :
    (merge_csv_files [some [⟨Cell.numeric 100, zeroData⟩]] 0).result =
        some [] ∧
    (merge_csv_files [some [⟨Cell.numeric 100, zeroData⟩]] 0).writes = 1 ∧
    ∀ csvs2 : List (Option (List RawRow)),
      ((merge_csv_files csvs2 0).result = none ↔
        csvs2.filterMap id = []) :=
  merge_all_filtered_writes_empty [some [⟨Cell.numeric 100, zeroData⟩]] 0
    (by decide) rfl

/-- C1 counterexample: with the literal `open_time` values 100, 200, 300
of the claim (epoch milliseconds in 1970), every row is below the
minimum accepted timestamp 1230768000000, so the merged result has zero
rows, not three. -/
theorem merge_first_seen_counterexample :
    (merge_csv_files
        [some [⟨Cell.numeric 100, zeroData⟩, ⟨Cell.numeric 200, zeroData⟩],
         some [⟨Cell.numeric 200, oneData⟩, ⟨Cell.numeric 300, oneData⟩]]
        1760227200000).result = some [] := rfl

/-- C1 amended: the first-seen-wins merge behaviour, at in-range
timestamps (the minimum plus 100, 200, 300 ms; run time 2025-10-12).
Batch A holds rows at t1 and t2, batch B holds a row at t2 with
arbitrary different field values and a row at t3; the merged result has
exactly the three rows t1, t2, t3 and the retained t2 row carries batch
A's field values. -/
theorem merge_first_seen_wins (a1 a2 b1 b2 : RowData) :
    (merge_csv_files
        [some [⟨Cell.numeric 1230768000100, a1⟩,
               ⟨Cell.numeric 1230768000200, a2⟩],
         some [⟨Cell.numeric 1230768000200, b1⟩,
               ⟨Cell.numeric 1230768000300, b2⟩]]
        1760227200000).result =
      some [⟨epoch_ms_to_utc 1230768000100, 1230768000100, a1⟩,
            ⟨epoch_ms_to_utc 1230768000200, 1230768000200, a2⟩,
            ⟨epoch_ms_to_utc 1230768000300, 1230768000300, b2⟩] := by
  have hc1 : min_timestamp ≤ (1230768000100 : ℚ) ∧
      (1230768000100 : ℚ) ≤ max_timestamp 1760227200000 := by decide
  have hc2 : min_timestamp ≤ (1230768000200 : ℚ) ∧
      (1230768000200 : ℚ) ≤ max_timestamp 1760227200000 := by decide
  have hc3 : min_timestamp ≤ (1230768000300 : ℚ) ∧
      (1230768000300 : ℚ) ≤ max_timestamp 1760227200000 := by decide
  have hvalid : validRows
      [⟨Cell.numeric 1230768000100, a1⟩, ⟨Cell.numeric 1230768000200, a2⟩,
       ⟨Cell.numeric 1230768000200, b1⟩, ⟨Cell.numeric 1230768000300, b2⟩]
      1760227200000 =
      [⟨1230768000100, a1⟩, ⟨1230768000200, a2⟩,
       ⟨1230768000200, b1⟩, ⟨1230768000300, b2⟩] := by
    simp [validRows, to_numeric, hc1, hc2, hc3]
  have s1 : numRowLE ⟨1230768000200, b1⟩ ⟨1230768000300, b2⟩ := by
    show (1230768000200 : ℚ) ≤ 1230768000300
    norm_num
  have s2 : numRowLE ⟨1230768000200, a2⟩ ⟨1230768000200, b1⟩ := by
    show (1230768000200 : ℚ) ≤ 1230768000200
    norm_num
  have s3 : numRowLE ⟨1230768000100, a1⟩ ⟨1230768000200, a2⟩ := by
    show (1230768000100 : ℚ) ≤ 1230768000200
    norm_num
  have hsort : sortRows
      [⟨1230768000100, a1⟩, ⟨1230768000200, a2⟩,
       ⟨1230768000200, b1⟩, ⟨1230768000300, b2⟩] =
      [⟨1230768000100, a1⟩, ⟨1230768000200, a2⟩,
       ⟨1230768000200, b1⟩, ⟨1230768000300, b2⟩] := by
    show List.orderedInsert numRowLE ⟨1230768000100, a1⟩
        (List.orderedInsert numRowLE ⟨1230768000200, a2⟩
          (List.orderedInsert numRowLE ⟨1230768000200, b1⟩
            (List.orderedInsert numRowLE ⟨1230768000300, b2⟩ []))) = _
    rw [show List.orderedInsert numRowLE ⟨1230768000300, b2⟩
        ([] : List NumRow) = [⟨1230768000300, b2⟩] from rfl]
    rw [List.orderedInsert, if_pos s1]
    rw [List.orderedInsert, if_pos s2]
    rw [List.orderedInsert, if_pos s3]
  have m1 : ¬((1230768000100 : ℚ) ∈ ([] : List ℚ)) := by simp
  have m2 : ¬((1230768000200 : ℚ) ∈ ([1230768000100] : List ℚ)) := by
    norm_num
  have m3 : (1230768000200 : ℚ) ∈
      ([1230768000200, 1230768000100] : List ℚ) :=
    List.mem_cons_self _ _
  have m4 : ¬((1230768000300 : ℚ) ∈
      ([1230768000200, 1230768000100] : List ℚ)) := by norm_num
  have hdedup : drop_duplicates
      [⟨1230768000100, a1⟩, ⟨1230768000200, a2⟩,
       ⟨1230768000200, b1⟩, ⟨1230768000300, b2⟩] =
      [⟨1230768000100, a1⟩, ⟨1230768000200, a2⟩,
       ⟨1230768000300, b2⟩] := by
    unfold drop_duplicates
    rw [dedupRows, if_neg m1]
    rw [dedupRows, if_neg m2]
    rw [dedupRows, if_pos m3]
    rw [dedupRows, if_neg m4]
    rw [show dedupRows [1230768000300, 1230768000200, 1230768000100] [] =
        [] from rfl]
  have hmerge : merge_csv_files
      [some [⟨Cell.numeric 1230768000100, a1⟩,
             ⟨Cell.numeric 1230768000200, a2⟩],
       some [⟨Cell.numeric 1230768000200, b1⟩,
             ⟨Cell.numeric 1230768000300, b2⟩]]
      1760227200000 =
      ⟨some (addDatetime (drop_duplicates (sortRows (validRows
        [⟨Cell.numeric 1230768000100, a1⟩, ⟨Cell.numeric 1230768000200, a2⟩,
         ⟨Cell.numeric 1230768000200, b1⟩, ⟨Cell.numeric 1230768000300, b2⟩]
        1760227200000)))), 1⟩ := by
    unfold merge_csv_files
    simp
  rw [hmerge, hvalid, hsort, hdedup]
  simp [addDatetime]

/-- C2 counterexample: `collect` skips `cleanup()` on both early-return
paths — when the locator yields no links, and when links exist but no
archive download succeeds. -/
theorem collect_cleanup_counterexample :
    (collect [] (fun _ => none) 0).cleanupCalled = false ∧
    (collect [⟨"BTCUSDT", "4h", 2017, 1⟩] (fun _ => none) 0).cleanupCalled
      = false :=
  ⟨rfl, rfl⟩

/-- C2 amended: the scratch-directory cleanup runs exactly on the paths
that reach `merge_csv_files` — locator non-empty and at least one
archive fetched — whether merge succeeded or returned absent; on the
early exits (empty locator result, or zero archives fetched) `collect`
returns without removing the scratch directory. -/
theorem collect_cleanup_iff (zip_links : List ArchiveURL)
    (fetch : ArchiveURL → Option (Option (List RawRow))) (nowMs : Int) :
    (collect zip_links fetch nowMs).cleanupCalled = true ↔
      zip_links ≠ [] ∧ zip_links.filterMap fetch ≠ [] := by
  unfold collect
  by_cases h1 : zip_links = []
  · simp [h1]
  · by_cases h2 : zip_links.filterMap fetch = [] <;> simp [h1, h2]

/-- All-failures behaviour of the retry loop: when every attempt fails
retryably, the loop uses every attempt, sleeps between consecutive
attempts, and returns `None` instead of raising. -/
theorem downloadLoop_all_fail : ∀ outs : List AttemptOutcome,
    outs ≠ [] → (∀ o ∈ outs, retryableFailure o) →
    downloadLoop outs =
      ⟨none, outs.length, (outs.length - 1) * retry_delay⟩
  | [], h, _ => absurd rfl h
  | o :: rest, _, hall => by
      have ho := hall o (List.mem_cons_self o rest)
      have htail : ∀ x ∈ rest, retryableFailure x :=
        fun x hx => hall x (List.mem_cons_of_mem _ hx)
      cases o with
      | notFound => exact absurd ho (by simp [retryableFailure])
      | ok csv => exact absurd ho (by simp [retryableFailure])
      | httpError code =>
          have hc : ¬(code = 404) := ho
          cases rest with
          | nil => simp [downloadLoop, hc, retry_delay]
          | cons o2 rest2 =>
              have ih := downloadLoop_all_fail (o2 :: rest2) (by simp) htail
              show (if code = 404 then (⟨none, 1, 0⟩ : FetchResult)
                    else if (o2 :: rest2).isEmpty then ⟨none, 1, 0⟩
                    else ⟨(downloadLoop (o2 :: rest2)).result,
                          (downloadLoop (o2 :: rest2)).attempts + 1,
                          (downloadLoop (o2 :: rest2)).sleepSeconds +
                            retry_delay⟩) = _
              rw [if_neg hc, ih]
              simp [retry_delay, FetchResult.mk.injEq]
              omega
      | otherError =>
          cases rest with
          | nil => simp [downloadLoop, retry_delay]
          | cons o2 rest2 =>
              have ih := downloadLoop_all_fail (o2 :: rest2) (by simp) htail
              show (if (o2 :: rest2).isEmpty then (⟨none, 1, 0⟩ : FetchResult)
                    else ⟨(downloadLoop (o2 :: rest2)).result,
                          (downloadLoop (o2 :: rest2)).attempts + 1,
                          (downloadLoop (o2 :: rest2)).sleepSeconds +
                            retry_delay⟩) = _
              rw [ih]
              simp [retry_delay, FetchResult.mk.injEq]
              omega

/-- C6: `download_and_extract` returns absent after exactly one attempt
(no retries, no delay) on a 404; on runs where every attempt fails with
a retryable error (timeout, connection error, non-404 HTTP error) it
uses all `retries` attempts with the fixed 2-second inter-attempt delay
and returns absent instead of raising. -/
theorem download_notfound_and_retry (outcomes : Nat → AttemptOutcome)
    (retries : Nat) (hr : 1 ≤ retries) :
    (outcomes 0 = AttemptOutcome.notFound →
      download_and_extract outcomes retries = ⟨none, 1, 0⟩) ∧
    ((∀ i, i < retries → retryableFailure (outcomes i)) →
      download_and_extract outcomes retries =
        ⟨none, retries, (retries - 1) * retry_delay⟩) := by
  constructor
  · intro h0
    obtain ⟨k, rfl⟩ : ∃ k, retries = k + 1 :=
      ⟨retries - 1, (Nat.succ_pred_eq_of_pos hr).symm⟩
    unfold download_and_extract
    rw [List.range_succ_eq_map, List.map_cons, h0]
    rfl
  · intro hall
    unfold download_and_extract
    have hlen : ((List.range retries).map outcomes).length = retries := by
      simp
    have hne : (List.range retries).map outcomes ≠ [] := by
      simp only [ne_eq, List.map_eq_nil_iff, List.range_eq_nil]
      omega
    have hmem : ∀ o ∈ (List.range retries).map outcomes,
        retryableFailure o := by
      intro o ho
      simp only [List.mem_map, List.mem_range] at ho
      obtain ⟨i, hi, rfl⟩ := ho
      exact hall i hi
    rw [downloadLoop_all_fail _ hne hmem, hlen]

/-- Witness for `download_notfound_and_retry`: a 404 on the first
attempt with the default 3 retries, and a run of three connection
errors. -/
theorem download_notfound_and_retry_witness :
    1 ≤ 3 ∧
    download_and_extract (fun _ => AttemptOutcome.notFound) 3 =
      ⟨none, 1, 0⟩ ∧
    download_and_extract (fun _ => AttemptOutcome.otherError) 3 =
      ⟨none, 3, (3 - 1) * retry_delay⟩ :=
  ⟨by decide,
    (download_notfound_and_retry (fun _ => AttemptOutcome.notFound) 3
      (by decide)).1 rfl,
    (download_notfound_and_retry (fun _ => AttemptOutcome.otherError) 3
      (by decide)).2 (fun _ _ => trivial)⟩

/-- The loop condition `datetime(y, m, 1) <= end_date` holds iff the
month (y, m) is no later than the end date's month. -/
theorem dateLE_iff_monthIdx (y m : Int) (endd : Date) (hm1 : 1 ≤ m)
    (hm2 : m ≤ 12) (he1 : 1 ≤ endd.m) (he2 : endd.m ≤ 12)
    (hd : 1 ≤ endd.d) :
    dateLE ⟨y, m, 1⟩ endd ↔ monthIdx y m ≤ monthIdx endd.y endd.m := by
  obtain ⟨ey, em, ed⟩ := endd
  simp only [dateLE, monthIdx] at *
  omega

/-- `monthIdx` is a left inverse of `ofMonthIdx`. -/
theorem monthIdx_ofMonthIdx (k : Int) :
    monthIdx (ofMonthIdx k).1 (ofMonthIdx k).2 = k := by
  simp only [monthIdx, ofMonthIdx]
  omega

/-- `ofMonthIdx` recovers a valid (year, month) pair from its index. -/
theorem ofMonthIdx_monthIdx (y m : Int) (h1 : 1 ≤ m) (h2 : m ≤ 12) :
    ofMonthIdx (monthIdx y m) = (y, m) := by
  simp only [ofMonthIdx, monthIdx, Prod.mk.injEq]
  constructor <;> omega

/-- Characterization of the generator loop: with enough fuel it emits
exactly the consecutive months from (y, m) through the end date's month,
as month indices. -/
theorem genMonths_eq (endd : Date) (he1 : 1 ≤ endd.m) (he2 : endd.m ≤ 12)
    (hd : 1 ≤ endd.d) (fuel : Nat) :
    ∀ (y m : Int), 1 ≤ m → m ≤ 12 →
      monthIdx endd.y endd.m + 1 - monthIdx y m ≤ (fuel : Int) →
      genMonths endd fuel y m =
        (List.range (monthIdx endd.y endd.m + 1 - monthIdx y m).toNat).map
          (fun i : Nat => ofMonthIdx (monthIdx y m + (i : Int))) := by
  induction fuel with
  | zero =>
      intro y m hm1 hm2 hfuel
      have hz : (monthIdx endd.y endd.m + 1 - monthIdx y m).toNat = 0 := by
        omega
      simp [genMonths, hz]
  | succ fuel ih =>
      intro y m hm1 hm2 hfuel
      show (if dateLE ⟨y, m, 1⟩ endd then
              (y, m) :: (if m = 12 then genMonths endd fuel (y + 1) 1
                         else genMonths endd fuel y (m + 1))
            else []) = _
      by_cases hle : dateLE ⟨y, m, 1⟩ endd
      · have hidx : monthIdx y m ≤ monthIdx endd.y endd.m :=
          (dateLE_iff_monthIdx y m endd hm1 hm2 he1 he2 hd).mp hle
        obtain ⟨k, hk⟩ :
            ∃ k : Nat,
              (monthIdx endd.y endd.m + 1 - monthIdx y m).toNat = k + 1 :=
          ⟨(monthIdx endd.y endd.m - monthIdx y m).toNat, by omega⟩
        have hknext :
            (monthIdx endd.y endd.m + 1 - (monthIdx y m + 1)).toNat = k := by
          omega
        rw [if_pos hle, hk, List.range_succ_eq_map, List.map_cons,
          List.map_map]
        have hhead : ofMonthIdx (monthIdx y m + ((0 : Nat) : Int)) = (y, m) := by
          rw [show monthIdx y m + ((0 : Nat) : Int) = monthIdx y m by
            push_cast; ring]
          exact ofMonthIdx_monthIdx y m hm1 hm2
        rw [hhead]
        by_cases hm12 : m = 12
        · rw [if_pos hm12]
          have hstep : monthIdx (y + 1) 1 = monthIdx y m + 1 := by
            simp only [monthIdx]; omega
          rw [ih (y + 1) 1 (by norm_num) (by norm_num)
            (by rw [hstep]; omega), hstep, hknext]
          refine congrArg _ (List.map_congr_left fun i _ => ?_)
          simp only [Function.comp_apply]
          congr 1
          push_cast
          ring
        · rw [if_neg hm12]
          have hstep : monthIdx y (m + 1) = monthIdx y m + 1 := by
            simp only [monthIdx]; omega
          rw [ih y (m + 1) (by omega) (by omega)
            (by rw [hstep]; omega), hstep, hknext]
          refine congrArg _ (List.map_congr_left fun i _ => ?_)
          simp only [Function.comp_apply]
          congr 1
          push_cast
          ring
      · rw [if_neg hle]
        have hgt : ¬(monthIdx y m ≤ monthIdx endd.y endd.m) := fun hc =>
          hle ((dateLE_iff_monthIdx y m endd hm1 hm2 he1 he2 hd).mpr hc)
        have hz : (monthIdx endd.y endd.m + 1 - monthIdx y m).toNat = 0 := by
          omega
        rw [hz]
        simp

/-- C7: when the listing query fails, `get_zip_links` falls back to
`generate_urls_by_pattern`, which returns a non-empty list containing
exactly one URL for every (year, month) from January of the symbol's
start year (2017 for BTCUSDT, 2018 otherwise) through the current month
inclusive — none omitted, none repeated — in ascending chronological
order. -/
theorem locator_fallback_covers_months (symbol interval : String)
    (now : Date) (h1 : 1 ≤ now.m) (h2 : now.m ≤ 12) (h3 : 1 ≤ now.d)
    (h4 : monthIdx (start_year symbol) 1 ≤ monthIdx now.y now.m) :
    get_zip_links ListingOutcome.failed symbol interval now =
      generate_urls_by_pattern symbol interval now ∧
    generate_urls_by_pattern symbol interval now ≠ [] ∧
    (generate_urls_by_pattern symbol interval now).Nodup ∧
    List.Sorted (fun a b : ArchiveURL =>
      monthIdx a.year a.month < monthIdx b.year b.month)
      (generate_urls_by_pattern symbol interval now) ∧
    ∀ y m : Int, 1 ≤ m → m ≤ 12 →
      ((⟨symbol, interval, y, m⟩ : ArchiveURL) ∈
          generate_urls_by_pattern symbol interval now ↔
        monthIdx (start_year symbol) 1 ≤ monthIdx y m ∧
          monthIdx y m ≤ monthIdx now.y now.m) := by
  have hfuel : monthIdx now.y now.m + 1 - monthIdx (start_year symbol) 1 ≤
      (((now.y - start_year symbol + 2) * 12).toNat : Int) := by
    simp only [monthIdx] at h4 ⊢
    omega
  have hG : generate_urls_by_pattern symbol interval now =
      ((List.range (monthIdx now.y now.m + 1 -
          monthIdx (start_year symbol) 1).toNat).map
        (fun i : Nat =>
          ofMonthIdx (monthIdx (start_year symbol) 1 + (i : Int)))).map
        (fun p => (⟨symbol, interval, p.1, p.2⟩ : ArchiveURL)) := by
    unfold generate_urls_by_pattern
    dsimp only
    rw [genMonths_eq now h1 h2 h3 _ (start_year symbol) 1 (by norm_num)
      (by norm_num) hfuel]
  have hn : ((monthIdx now.y now.m + 1 -
      monthIdx (start_year symbol) 1).toNat : Int) =
      monthIdx now.y now.m + 1 - monthIdx (start_year symbol) 1 := by
    omega
  refine ⟨rfl, ?_, ?_, ?_, ?_⟩
  · rw [hG]
    simp only [ne_eq, List.map_eq_nil_iff, List.range_eq_nil]
    omega
  · rw [hG, List.map_map]
    refine (List.nodup_range _).map ?_
    intro i j hij
    simp only [Function.comp_apply, ArchiveURL.mk.injEq] at hij
    obtain ⟨-, -, e1, e2⟩ := hij
    have hm : monthIdx (ofMonthIdx (monthIdx (start_year symbol) 1 +
          (i : Int))).1
        (ofMonthIdx (monthIdx (start_year symbol) 1 + (i : Int))).2 =
        monthIdx (ofMonthIdx (monthIdx (start_year symbol) 1 +
          (j : Int))).1
        (ofMonthIdx (monthIdx (start_year symbol) 1 + (j : Int))).2 := by
      rw [e1, e2]
    rw [monthIdx_ofMonthIdx, monthIdx_ofMonthIdx] at hm
    omega
  · rw [hG, List.map_map, List.Sorted, List.pairwise_map]
    refine (List.pairwise_lt_range _).imp ?_
    intro i j hij
    simp only [Function.comp_apply]
    rw [monthIdx_ofMonthIdx, monthIdx_ofMonthIdx]
    omega
  · intro y m hm1 hm2
    rw [hG, List.map_map, List.mem_map]
    constructor
    · rintro ⟨i, hi_mem, hieq⟩
      rw [List.mem_range] at hi_mem
      simp only [Function.comp_apply, ArchiveURL.mk.injEq] at hieq
      obtain ⟨-, -, e1, e2⟩ := hieq
      have hm : monthIdx y m =
          monthIdx (start_year symbol) 1 + (i : Int) := by
        rw [← e1, ← e2, monthIdx_ofMonthIdx]
      omega
    · rintro ⟨hlo, hhi⟩
      refine ⟨(monthIdx y m - monthIdx (start_year symbol) 1).toNat,
        ?_, ?_⟩
      · rw [List.mem_range]
        omega
      · simp only [Function.comp_apply]
        have hcast : monthIdx (start_year symbol) 1 +
            ((monthIdx y m - monthIdx (start_year symbol) 1).toNat : Int) =
            monthIdx y m := by
          omega
        rw [hcast, ofMonthIdx_monthIdx y m hm1 hm2]

/-- Witness for `locator_fallback_covers_months`: BTCUSDT at a current
date of 2017-02-15. -/
theorem locator_fallback_covers_months_witness :
    (1 ≤ (2 : Int) ∧ (2 : Int) ≤ 12 ∧ 1 ≤ (15 : Int) ∧
      monthIdx (start_year "BTCUSDT") 1 ≤ monthIdx 2017 2) ∧
    (get_zip_links ListingOutcome.failed "BTCUSDT" "4h" ⟨2017, 2, 15⟩ =
      generate_urls_by_pattern "BTCUSDT" "4h" ⟨2017, 2, 15⟩ ∧
    generate_urls_by_pattern "BTCUSDT" "4h" ⟨2017, 2, 15⟩ ≠ [] ∧
    (generate_urls_by_pattern "BTCUSDT" "4h" ⟨2017, 2, 15⟩).Nodup ∧
    List.Sorted (fun a b : ArchiveURL =>
      monthIdx a.year a.month < monthIdx b.year b.month)
      (generate_urls_by_pattern "BTCUSDT" "4h" ⟨2017, 2, 15⟩) ∧
    ∀ y m : Int, 1 ≤ m → m ≤ 12 →
      ((⟨"BTCUSDT", "4h", y, m⟩ : ArchiveURL) ∈
          generate_urls_by_pattern "BTCUSDT" "4h" ⟨2017, 2, 15⟩ ↔
        monthIdx (start_year "BTCUSDT") 1 ≤ monthIdx y m ∧
          monthIdx y m ≤ monthIdx 2017 2)) :=
  ⟨⟨by norm_num, by norm_num, by norm_num, by decide⟩,
    locator_fallback_covers_months "BTCUSDT" "4h" ⟨2017, 2, 15⟩
      (by norm_num) (by norm_num) (by norm_num) (by decide)⟩
